import Mathlib

/-!
Verification of the social-listening dashboard core
(`src/social_listening_dashboard.py`).

The development shallowly embeds the algorithmic parts of the script:

* the date normalizer `parse_post_date` with its regular expression
  `DATE_RE = (\d{1,2}:\d{2})\s+(\d{1,2})\s+([A-Za-z]{3})\s+(\d{4})` and the
  month table `MON`;
* the bucket classifier `tag_bucket` with the eleven compiled
  `BUCKET_PATTERNS` (a small regex language without unbounded repetition
  suffices: the patterns use only literals, classes, alternation, optional
  groups and word boundaries);
* the date filter, the bucket filter and the daily pivot of the display
  pipeline;
* the top-sources ranking (`show_top_sources`);
* the spike detector, which exists only in the design document, modelled
  from its words.

Character classes `\d`, `\s`, `\w` and `[A-Za-z]` are modelled over their
ASCII ranges, which covers every string the theorems quantify over.
-/

namespace SocialListening

/-- A cell value handed to the helpers: either a Python `str` or any
non-string value (`NaN`, numbers, ...), which the code treats uniformly
through `isinstance(txt, str)`. -/
inductive CellValue where
  | str (s : String)
  | nonStr
deriving DecidableEq, Repr

/-- ASCII range of Python `\d`. -/
def isDigitC (c : Char) : Bool := '0' ≤ c && c ≤ '9'

/-- ASCII range of Python `\s`. -/
def isSpaceC (c : Char) : Bool :=
  c = ' ' || c = '\t' || c = '\n' || c = '\r' || c = '\x0b' || c = '\x0c'

/-- Python `[A-Za-z]`. -/
def isAlphaC (c : Char) : Bool :=
  ('A' ≤ c && c ≤ 'Z') || ('a' ≤ c && c ≤ 'z')

/-- The time group `(\d{1,2}:\d{2})` of `DATE_RE`, matched at the current
position.  The backtracking engine tries the two-digit hour first; the two
alternatives are mutually exclusive on the second character, so no later
failure can revive the other branch.  Returns the group text and the rest. -/
def matchTime (cs : List Char) : Option (List Char × List Char) :=
  match cs with
  | c1 :: c2 :: c3 :: c4 :: c5 :: rest =>
    if isDigitC c1 && isDigitC c2 && c3 = ':' && isDigitC c4 && isDigitC c5 then
      some ([c1, c2, c3, c4, c5], rest)
    else if isDigitC c1 && c2 = ':' && isDigitC c3 && isDigitC c4 then
      some ([c1, c2, c3, c4], c5 :: rest)
    else none
  | [c1, c2, c3, c4] =>
    if isDigitC c1 && c2 = ':' && isDigitC c3 && isDigitC c4 then
      some ([c1, c2, c3, c4], [])
    else none
  | _ => none

/-- Greedy tail of `\s+`.  The token after every `\s+` in `DATE_RE` is a
digit or a letter, never whitespace, so the greedy run is exact. -/
def eatSpacesGreedy : List Char → List Char
  | [] => []
  | c :: rest => if isSpaceC c then eatSpacesGreedy rest else c :: rest

/-- `\s+`: at least one whitespace character, then the greedy tail. -/
def eatSpaces1 (cs : List Char) : Option (List Char) :=
  match cs with
  | [] => none
  | c :: rest => if isSpaceC c then some (eatSpacesGreedy rest) else none

/-- The day group `(\d{1,2})` of `DATE_RE` together with the `\s+` that
follows it.  When two digits are available the engine keeps both exactly
when whitespace follows; backtracking to one digit then demands whitespace
at the second digit, which fails, so the branches are exclusive. -/
def matchDaySp (cs : List Char) : Option (List Char × List Char) :=
  match cs with
  | c1 :: c2 :: rest =>
    if isDigitC c1 then
      if isDigitC c2 then (eatSpaces1 rest).map (fun r => ([c1, c2], r))
      else (eatSpaces1 (c2 :: rest)).map (fun r => ([c1], r))
    else none
  | _ => none

/-- The month group `([A-Za-z]{3})`. -/
def matchMon (cs : List Char) : Option (List Char × List Char) :=
  match cs with
  | c1 :: c2 :: c3 :: rest =>
    if isAlphaC c1 && isAlphaC c2 && isAlphaC c3 then some ([c1, c2, c3], rest)
    else none
  | _ => none

/-- The year group `(\d{4})`; anything after the four digits is ignored,
as `DATE_RE` carries no end anchor. -/
def matchYear (cs : List Char) : Option (List Char) :=
  match cs with
  | c1 :: c2 :: c3 :: c4 :: _ =>
    if isDigitC c1 && isDigitC c2 && isDigitC c3 && isDigitC c4 then
      some [c1, c2, c3, c4]
    else none
  | _ => none

/-- One attempt of `DATE_RE` at the current position, yielding the four
groups (time, day, month, year). -/
def dateMatchAt (cs : List Char) : Option (List Char × List Char × List Char × List Char) :=
  match matchTime cs with
  | none => none
  | some (t, r1) =>
    match eatSpaces1 r1 with
    | none => none
    | some r2 =>
      match matchDaySp r2 with
      | none => none
      | some (d, r3) =>
        match matchMon r3 with
        | none => none
        | some (mo, r4) =>
          match eatSpaces1 r4 with
          | none => none
          | some r5 =>
            match matchYear r5 with
            | none => none
            | some y => some (t, d, mo, y)

/-- `DATE_RE.search`: the leftmost position where `dateMatchAt` succeeds.
(`dateMatchAt []` is `none`, so the empty string yields `none`.) -/
def dateSearch : List Char → Option (List Char × List Char × List Char × List Char)
  | [] => none
  | c :: rest =>
    match dateMatchAt (c :: rest) with
    | some g => some g
    | none => dateSearch rest

/-- The naive timestamp produced by `dt.datetime(year, month, day, hh, mm)`. -/
structure PDateTime where
  year : Nat
  month : Nat
  day : Nat
  hour : Nat
  minute : Nat
deriving DecidableEq, Repr

/-- The fixed 12-entry month table `MON` (English abbreviations mapped to
1..12 by `enumerate(..., 1)`). -/
def MON : List (String × Nat) :=
  [("Jan", 1), ("Feb", 2), ("Mar", 3), ("Apr", 4), ("May", 5), ("Jun", 6),
   ("Jul", 7), ("Aug", 8), ("Sep", 9), ("Oct", 10), ("Nov", 11), ("Dec", 12)]

/-- `MON[mon_s]`: `none` models the `KeyError` the code catches. -/
def monLookup (s : String) : Option Nat :=
  (MON.find? (fun p => p.1 = s)).map Prod.snd

/-- Python `int` on a non-empty all-digit group. -/
def digitsToNat (cs : List Char) : Nat :=
  cs.foldl (fun acc c => acc * 10 + (c.toNat - ('0').toNat)) 0

/-- `time_s.split(':')` for a group holding exactly one colon: the parts
before and after the first `':'`. -/
def splitOnColon : List Char → List Char × List Char
  | [] => ([], [])
  | c :: rest =>
    if c = ':' then ([], rest)
    else
      let p := splitOnColon rest
      (c :: p.1, p.2)

/-- Gregorian leap-year rule used by `datetime`. -/
def isLeap (y : Nat) : Bool := (y % 4 = 0 && y % 100 ≠ 0) || y % 400 = 0

/-- Length of a month per `datetime`. -/
def daysInMonth (y m : Nat) : Nat :=
  if m = 2 then (if isLeap y then 29 else 28)
  else if m = 4 || m = 6 || m = 9 || m = 11 then 30
  else 31

/-- `dt.datetime(y, mo, d, hh, mm)`: the constructor raises `ValueError`
outside these ranges (`MINYEAR = 1`, `MAXYEAR = 9999`), which
`parse_post_date` catches and turns into `NaT`. -/
def mkDatetime (y mo d hh mm : Nat) : Option PDateTime :=
  if 1 ≤ y ∧ y ≤ 9999 ∧ 1 ≤ mo ∧ mo ≤ 12 ∧ 1 ≤ d ∧ d ≤ daysInMonth y mo
      ∧ hh ≤ 23 ∧ mm ≤ 59 then
    some ⟨y, mo, d, hh, mm⟩
  else none

/-- `parse_post_date`: non-strings and unmatched, out-of-range or
unknown-month strings all come back as `none` (the code's `pd.NaT`). -/
def parse_post_date (v : CellValue) : Option PDateTime :=
  match v with
  | .nonStr => none
  | .str s =>
    match dateSearch s.toList with
    | none => none
    | some (t, d, mo, y) =>
      let hm := splitOnColon t
      match monLookup (String.mk mo) with
      | none => none
      | some m => mkDatetime (digitsToNat y) m (digitsToNat d) (digitsToNat hm.1) (digitsToNat hm.2)

/-- Decimal digit character: `digitChar n` is the character for `n < 10`. -/
def digitChar (n : Nat) : Char := Char.ofNat (('0').toNat + n)

/-- Two-digit zero-padded decimal rendering (for `n < 100`). -/
def pad2 (n : Nat) : List Char := [digitChar (n / 10), digitChar (n % 10)]

/-- Four-digit zero-padded decimal rendering (for `n < 10000`). -/
def pad4 (n : Nat) : List Char :=
  [digitChar (n / 1000), digitChar (n / 100 % 10), digitChar (n / 10 % 10), digitChar (n % 10)]

/-- The day written with one digit below ten, two digits otherwise. -/
def dayChars (n : Nat) : List Char := if n < 10 then [digitChar n] else pad2 n

/-- The English month abbreviation of month number `1..12`. -/
def monAbbrev (m : Nat) : String :=
  (["Jan", "Feb", "Mar", "Apr", "May", "Jun",
    "Jul", "Aug", "Sep", "Oct", "Nov", "Dec"]).getD (m - 1) ("Jan")

/-- The characters after the time colon in a date string:
`MM D Mon YYYY` with the surrounding separators. -/
def dateBody (hh mm d : Nat) (monCs : List Char) (y : Nat) : List Char :=
  pad2 hh ++ ':' :: (pad2 mm ++ ' ' :: (dayChars d ++ ' ' :: (monCs ++ ' ' :: pad4 y)))

/-- A string `"Posted HH:MM D Tok YYYY"` with an arbitrary month token. -/
def mkDateStringTok (hh mm d : Nat) (tok : String) (y : Nat) : String :=
  String.mk ('P' :: 'o' :: 's' :: 't' :: 'e' :: 'd' :: ' ' :: dateBody hh mm d tok.toList y)

/-- A well-formed `"Posted HH:MM D Mon YYYY"` string. -/
def mkDateString (hh mm d mo y : Nat) : String :=
  mkDateStringTok hh mm d (monAbbrev mo) y

theorem toList_mkDateStringTok (hh mm d : Nat) (tok : String) (y : Nat) :
    (mkDateStringTok hh mm d tok y).toList =
      'P' :: 'o' :: 's' :: 't' :: 'e' :: 'd' :: ' ' :: dateBody hh mm d tok.toList y := rfl

theorem isDigitC_digitChar : ∀ n : Nat, n < 10 → isDigitC (digitChar n) = true := by decide

theorem toNat_digitChar : ∀ n : Nat, n < 10 → (digitChar n).toNat = 48 + n := by decide

theorem digitChar_ne_colon : ∀ n : Nat, n < 10 → digitChar n ≠ ':' := by decide

theorem not_space_of_digit {c : Char} (h : isDigitC c = true) : isSpaceC c = false := by
  by_contra hs
  rw [Bool.not_eq_false] at hs
  simp only [isSpaceC, Bool.or_eq_true, decide_eq_true_eq] at hs
  rcases hs with (((((h1 | h1) | h1) | h1) | h1) | h1) <;> subst h1 <;>
    exact absurd h (by decide)

theorem not_space_of_alpha {c : Char} (h : isAlphaC c = true) : isSpaceC c = false := by
  by_contra hs
  rw [Bool.not_eq_false] at hs
  simp only [isSpaceC, Bool.or_eq_true, decide_eq_true_eq] at hs
  rcases hs with (((((h1 | h1) | h1) | h1) | h1) | h1) <;> subst h1 <;>
    exact absurd h (by decide)

/-- A position whose first character is not a digit cannot start a
`DATE_RE` match, so the search moves on. -/
theorem dateSearch_cons_of_not_digit (c : Char) (cs : List Char) (h : isDigitC c = false) :
    dateSearch (c :: cs) = dateSearch cs := by
  have hm : dateMatchAt (c :: cs) = none := by
    rcases cs with _ | ⟨c2, _ | ⟨c3, _ | ⟨c4, _ | ⟨c5, rest⟩⟩⟩⟩ <;>
      simp [dateMatchAt, matchTime, h]
  simp [dateSearch, hm]

theorem dateSearch_cons_of_match (c : Char) (cs : List Char)
    (g : List Char × List Char × List Char × List Char)
    (h : dateMatchAt (c :: cs) = some g) : dateSearch (c :: cs) = some g := by
  simp [dateSearch, h]

/-- A full `DATE_RE` match with a one-digit day. -/
theorem dateMatchAt_short (h1 h2 m1 m2 dc a b c y1 y2 y3 y4 : Char)
    (hd1 : isDigitC h1 = true) (hd2 : isDigitC h2 = true)
    (hm1 : isDigitC m1 = true) (hm2 : isDigitC m2 = true)
    (hdc : isDigitC dc = true)
    (ha : isAlphaC a = true) (hb : isAlphaC b = true) (hc : isAlphaC c = true)
    (hy1 : isDigitC y1 = true) (hy2 : isDigitC y2 = true)
    (hy3 : isDigitC y3 = true) (hy4 : isDigitC y4 = true) :
    dateMatchAt (h1 :: h2 :: ':' :: m1 :: m2 :: ' ' :: dc :: ' ' ::
        a :: b :: c :: ' ' :: [y1, y2, y3, y4])
      = some ([h1, h2, ':', m1, m2], [dc], [a, b, c], [y1, y2, y3, y4]) := by
  have hsp : isSpaceC ' ' = true := by decide
  have hnd : isDigitC ' ' = false := by decide
  simp [dateMatchAt, matchTime, eatSpaces1, eatSpacesGreedy, matchDaySp, matchMon, matchYear,
        hd1, hd2, hm1, hm2, hdc, ha, hb, hc, hy1, hy2, hy3, hy4, hsp, hnd,
        not_space_of_digit hdc, not_space_of_alpha ha, not_space_of_digit hy1]

/-- A full `DATE_RE` match with a two-digit day. -/
theorem dateMatchAt_long (h1 h2 m1 m2 dc1 dc2 a b c y1 y2 y3 y4 : Char)
    (hd1 : isDigitC h1 = true) (hd2 : isDigitC h2 = true)
    (hm1 : isDigitC m1 = true) (hm2 : isDigitC m2 = true)
    (hdc1 : isDigitC dc1 = true) (hdc2 : isDigitC dc2 = true)
    (ha : isAlphaC a = true) (hb : isAlphaC b = true) (hc : isAlphaC c = true)
    (hy1 : isDigitC y1 = true) (hy2 : isDigitC y2 = true)
    (hy3 : isDigitC y3 = true) (hy4 : isDigitC y4 = true) :
    dateMatchAt (h1 :: h2 :: ':' :: m1 :: m2 :: ' ' :: dc1 :: dc2 :: ' ' ::
        a :: b :: c :: ' ' :: [y1, y2, y3, y4])
      = some ([h1, h2, ':', m1, m2], [dc1, dc2], [a, b, c], [y1, y2, y3, y4]) := by
  have hsp : isSpaceC ' ' = true := by decide
  simp [dateMatchAt, matchTime, eatSpaces1, eatSpacesGreedy, matchDaySp, matchMon, matchYear,
        hd1, hd2, hm1, hm2, hdc1, hdc2, ha, hb, hc, hy1, hy2, hy3, hy4, hsp,
        not_space_of_digit hdc1, not_space_of_alpha ha, not_space_of_digit hy1]

theorem digitsToNat_pad2 (n : Nat) (h : n < 100) : digitsToNat (pad2 n) = n := by
  have h1 : n / 10 < 10 := by omega
  have h2 : n % 10 < 10 := by omega
  simp [digitsToNat, pad2, toNat_digitChar _ h1, toNat_digitChar _ h2]
  omega

theorem digitsToNat_pad4 (n : Nat) (h : n < 10000) : digitsToNat (pad4 n) = n := by
  have h1 : n / 1000 < 10 := by omega
  have h2 : n / 100 % 10 < 10 := by omega
  have h3 : n / 10 % 10 < 10 := by omega
  have h4 : n % 10 < 10 := by omega
  simp [digitsToNat, pad4, toNat_digitChar _ h1, toNat_digitChar _ h2,
        toNat_digitChar _ h3, toNat_digitChar _ h4]
  omega

theorem digitsToNat_single (n : Nat) (h : n < 10) : digitsToNat [digitChar n] = n := by
  simp [digitsToNat, toNat_digitChar _ h]

theorem splitOnColon_time (h1 h2 m1 m2 : Char) (hne1 : h1 ≠ ':') (hne2 : h2 ≠ ':') :
    splitOnColon [h1, h2, ':', m1, m2] = ([h1, h2], [m1, m2]) := by
  simp [splitOnColon, hne1, hne2]

/-- Evaluation of `parse_post_date` on a `"Posted HH:MM D Tok YYYY"` string:
the regular expression always matches, and the result is decided by the
month lookup and the `datetime` constructor. -/
theorem parse_post_date_form (hh mm d y : Nat) (a b c : Char)
    (hh100 : hh < 100) (hmm100 : mm < 100) (hd100 : d < 100) (hy : y < 10000)
    (ha : isAlphaC a = true) (hb : isAlphaC b = true) (hc : isAlphaC c = true) :
    parse_post_date (.str (mkDateStringTok hh mm d (String.mk [a, b, c]) y)) =
      match monLookup (String.mk [a, b, c]) with
      | none => none
      | some m => mkDatetime y m d hh mm := by
  have hh1 : hh / 10 < 10 := by omega
  have hh2 : hh % 10 < 10 := by omega
  have hm1 : mm / 10 < 10 := by omega
  have hm2 : mm % 10 < 10 := by omega
  have hy1 : y / 1000 < 10 := by omega
  have hy2 : y / 100 % 10 < 10 := by omega
  have hy3 : y / 10 % 10 < 10 := by omega
  have hy4 : y % 10 < 10 := by omega
  have htok : (String.mk [a, b, c]).toList = [a, b, c] := rfl
  have hsearch : dateSearch (mkDateStringTok hh mm d (String.mk [a, b, c]) y).toList =
      some ([digitChar (hh / 10), digitChar (hh % 10), ':',
             digitChar (mm / 10), digitChar (mm % 10)],
            dayChars d, [a, b, c], pad4 y) := by
    rw [toList_mkDateStringTok, htok]
    rw [dateSearch_cons_of_not_digit _ _ (by decide)]
    rw [dateSearch_cons_of_not_digit _ _ (by decide)]
    rw [dateSearch_cons_of_not_digit _ _ (by decide)]
    rw [dateSearch_cons_of_not_digit _ _ (by decide)]
    rw [dateSearch_cons_of_not_digit _ _ (by decide)]
    rw [dateSearch_cons_of_not_digit _ _ (by decide)]
    rw [dateSearch_cons_of_not_digit _ _ (by decide)]
    by_cases hd : d < 10
    · have hbody : dateBody hh mm d [a, b, c] y =
          digitChar (hh / 10) :: digitChar (hh % 10) :: ':' ::
          digitChar (mm / 10) :: digitChar (mm % 10) :: ' ' :: digitChar d :: ' ' ::
          a :: b :: c :: ' ' ::
          [digitChar (y / 1000), digitChar (y / 100 % 10),
           digitChar (y / 10 % 10), digitChar (y % 10)] := by
        simp [dateBody, pad2, pad4, dayChars, hd]
      rw [hbody]
      rw [dateSearch_cons_of_match _ _ _
        (dateMatchAt_short _ _ _ _ _ _ _ _ _ _ _ _
          (isDigitC_digitChar _ hh1) (isDigitC_digitChar _ hh2)
          (isDigitC_digitChar _ hm1) (isDigitC_digitChar _ hm2)
          (isDigitC_digitChar _ hd) ha hb hc
          (isDigitC_digitChar _ hy1) (isDigitC_digitChar _ hy2)
          (isDigitC_digitChar _ hy3) (isDigitC_digitChar _ hy4))]
      simp [dayChars, hd, pad4]
    · have hbody : dateBody hh mm d [a, b, c] y =
          digitChar (hh / 10) :: digitChar (hh % 10) :: ':' ::
          digitChar (mm / 10) :: digitChar (mm % 10) :: ' ' ::
          digitChar (d / 10) :: digitChar (d % 10) :: ' ' ::
          a :: b :: c :: ' ' ::
          [digitChar (y / 1000), digitChar (y / 100 % 10),
           digitChar (y / 10 % 10), digitChar (y % 10)] := by
        simp [dateBody, pad2, pad4, dayChars, hd]
      have hdd1 : d / 10 < 10 := by omega
      have hdd2 : d % 10 < 10 := by omega
      rw [hbody]
      rw [dateSearch_cons_of_match _ _ _
        (dateMatchAt_long _ _ _ _ _ _ _ _ _ _ _ _ _
          (isDigitC_digitChar _ hh1) (isDigitC_digitChar _ hh2)
          (isDigitC_digitChar _ hm1) (isDigitC_digitChar _ hm2)
          (isDigitC_digitChar _ hdd1) (isDigitC_digitChar _ hdd2) ha hb hc
          (isDigitC_digitChar _ hy1) (isDigitC_digitChar _ hy2)
          (isDigitC_digitChar _ hy3) (isDigitC_digitChar _ hy4))]
      simp [dayChars, hd, pad2, pad4]
  simp only [parse_post_date, hsearch]
  rw [splitOnColon_time _ _ _ _ (digitChar_ne_colon _ hh1) (digitChar_ne_colon _ hh2)]
  by_cases hd : d < 10
  · simp only [dayChars, if_pos hd]
    rcases hmon : monLookup (String.mk [a, b, c]) with _ | m
    · simp
    · simp only [digitsToNat_pad4 _ hy, digitsToNat_single _ hd]
      rw [show [digitChar (hh / 10), digitChar (hh % 10)] = pad2 hh from rfl,
          show [digitChar (mm / 10), digitChar (mm % 10)] = pad2 mm from rfl,
          digitsToNat_pad2 _ hh100, digitsToNat_pad2 _ hmm100]
  · simp only [dayChars, if_neg hd]
    rcases hmon : monLookup (String.mk [a, b, c]) with _ | m
    · simp
    · simp only [digitsToNat_pad4 _ hy, digitsToNat_pad2 _ hd100]
      rw [show [digitChar (hh / 10), digitChar (hh % 10)] = pad2 hh from rfl,
          show [digitChar (mm / 10), digitChar (mm % 10)] = pad2 mm from rfl,
          digitsToNat_pad2 _ hh100, digitsToNat_pad2 _ hmm100]

theorem daysInMonth_le_31 (y m : Nat) : daysInMonth y m ≤ 31 := by
  unfold daysInMonth
  split
  · split <;> omega
  · split <;> omega

/-- Round trip for one fixed month token whose lookup succeeds. -/
theorem roundtrip_case (hh mm d y mval : Nat) (a b c : Char)
    (hhh : hh ≤ 23) (hmm' : mm ≤ 59) (hd1 : 1 ≤ d) (hd2 : d ≤ daysInMonth y mval)
    (hy1 : 1 ≤ y) (hy2 : y ≤ 9999)
    (ha : isAlphaC a = true) (hb : isAlphaC b = true) (hc : isAlphaC c = true)
    (hm1 : 1 ≤ mval) (hm2 : mval ≤ 12)
    (hmon : monLookup (String.mk [a, b, c]) = some mval) :
    parse_post_date (.str (mkDateStringTok hh mm d (String.mk [a, b, c]) y)) =
      some ⟨y, mval, d, hh, mm⟩ := by
  have hle : daysInMonth y mval ≤ 31 := daysInMonth_le_31 y mval
  rw [parse_post_date_form hh mm d y a b c (by omega) (by omega) (by omega) (by omega) ha hb hc,
      hmon]
  show mkDatetime y mval d hh mm = some ⟨y, mval, d, hh, mm⟩
  unfold mkDatetime
  rw [if_pos]
  exact ⟨hy1, hy2, hm1, hm2, hd1, hd2, hhh, hmm'⟩

/-- Claim C3 (amended): for every string `"Posted HH:MM D Mon YYYY"` whose
time, day-of-month and month components are valid and whose four-digit year
is at least 0001, `parse_post_date` returns a timestamp whose hour, minute,
day, month and year equal the input components. -/
theorem parse_post_date_roundtrip (hh mm d mo y : Nat)
    (hhh : hh ≤ 23) (hmm' : mm ≤ 59) (hmo1 : 1 ≤ mo) (hmo2 : mo ≤ 12)
    (hd1 : 1 ≤ d) (hd2 : d ≤ daysInMonth y mo) (hy1 : 1 ≤ y) (hy2 : y ≤ 9999) :
    parse_post_date (.str (mkDateString hh mm d mo y)) = some ⟨y, mo, d, hh, mm⟩ := by
  interval_cases mo
  · rw [show mkDateString hh mm d 1 y = mkDateStringTok hh mm d (String.mk ['J', 'a', 'n']) y
        from rfl]
    exact roundtrip_case hh mm d y 1 'J' 'a' 'n' hhh hmm' hd1 hd2 hy1 hy2
      (by decide) (by decide) (by decide) (by decide) (by decide) (by decide)
  · rw [show mkDateString hh mm d 2 y = mkDateStringTok hh mm d (String.mk ['F', 'e', 'b']) y
        from rfl]
    exact roundtrip_case hh mm d y 2 'F' 'e' 'b' hhh hmm' hd1 hd2 hy1 hy2
      (by decide) (by decide) (by decide) (by decide) (by decide) (by decide)
  · rw [show mkDateString hh mm d 3 y = mkDateStringTok hh mm d (String.mk ['M', 'a', 'r']) y
        from rfl]
    exact roundtrip_case hh mm d y 3 'M' 'a' 'r' hhh hmm' hd1 hd2 hy1 hy2
      (by decide) (by decide) (by decide) (by decide) (by decide) (by decide)
  · rw [show mkDateString hh mm d 4 y = mkDateStringTok hh mm d (String.mk ['A', 'p', 'r']) y
        from rfl]
    exact roundtrip_case hh mm d y 4 'A' 'p' 'r' hhh hmm' hd1 hd2 hy1 hy2
      (by decide) (by decide) (by decide) (by decide) (by decide) (by decide)
  · rw [show mkDateString hh mm d 5 y = mkDateStringTok hh mm d (String.mk ['M', 'a', 'y']) y
        from rfl]
    exact roundtrip_case hh mm d y 5 'M' 'a' 'y' hhh hmm' hd1 hd2 hy1 hy2
      (by decide) (by decide) (by decide) (by decide) (by decide) (by decide)
  · rw [show mkDateString hh mm d 6 y = mkDateStringTok hh mm d (String.mk ['J', 'u', 'n']) y
        from rfl]
    exact roundtrip_case hh mm d y 6 'J' 'u' 'n' hhh hmm' hd1 hd2 hy1 hy2
      (by decide) (by decide) (by decide) (by decide) (by decide) (by decide)
  · rw [show mkDateString hh mm d 7 y = mkDateStringTok hh mm d (String.mk ['J', 'u', 'l']) y
        from rfl]
    exact roundtrip_case hh mm d y 7 'J' 'u' 'l' hhh hmm' hd1 hd2 hy1 hy2
      (by decide) (by decide) (by decide) (by decide) (by decide) (by decide)
  · rw [show mkDateString hh mm d 8 y = mkDateStringTok hh mm d (String.mk ['A', 'u', 'g']) y
        from rfl]
    exact roundtrip_case hh mm d y 8 'A' 'u' 'g' hhh hmm' hd1 hd2 hy1 hy2
      (by decide) (by decide) (by decide) (by decide) (by decide) (by decide)
  · rw [show mkDateString hh mm d 9 y = mkDateStringTok hh mm d (String.mk ['S', 'e', 'p']) y
        from rfl]
    exact roundtrip_case hh mm d y 9 'S' 'e' 'p' hhh hmm' hd1 hd2 hy1 hy2
      (by decide) (by decide) (by decide) (by decide) (by decide) (by decide)
  · rw [show mkDateString hh mm d 10 y = mkDateStringTok hh mm d (String.mk ['O', 'c', 't']) y
        from rfl]
    exact roundtrip_case hh mm d y 10 'O' 'c' 't' hhh hmm' hd1 hd2 hy1 hy2
      (by decide) (by decide) (by decide) (by decide) (by decide) (by decide)
  · rw [show mkDateString hh mm d 11 y = mkDateStringTok hh mm d (String.mk ['N', 'o', 'v']) y
        from rfl]
    exact roundtrip_case hh mm d y 11 'N' 'o' 'v' hhh hmm' hd1 hd2 hy1 hy2
      (by decide) (by decide) (by decide) (by decide) (by decide) (by decide)
  · rw [show mkDateString hh mm d 12 y = mkDateStringTok hh mm d (String.mk ['D', 'e', 'c']) y
        from rfl]
    exact roundtrip_case hh mm d y 12 'D' 'e' 'c' hhh hmm' hd1 hd2 hy1 hy2
      (by decide) (by decide) (by decide) (by decide) (by decide) (by decide)

/-- Claim C3, counterexample: `"Posted 09:00 1 Jan 0000"` is of the form
`"Posted HH:MM D Mon YYYY"` with a valid time, day and month and a
four-digit year, yet `parse_post_date` returns the sentinel rather than a
timestamp with the input components (`datetime` rejects year 0). -/
theorem parse_post_date_year_zero :
    mkDateString 9 0 1 1 0 = "Posted 09:00 1 Jan 0000" ∧
    parse_post_date (.str ("Posted 09:00 1 Jan 0000")) = none := by
  constructor
  · decide
  · decide

/-- Claim C3, witness: the amended round trip at `"Posted 09:30 15 Jun 2025"`. -/
theorem parse_post_date_roundtrip_witness :
    parse_post_date (.str (mkDateString 9 30 15 6 2025)) = some ⟨2025, 6, 15, 9, 30⟩ :=
  parse_post_date_roundtrip 9 30 15 6 2025 (by decide) (by decide) (by decide) (by decide)
    (by decide) (by decide) (by decide) (by decide)

/-- One fixed month token, day 32: the `datetime` constructor fails. -/
theorem day32_case (hh mm y mval : Nat) (a b c : Char)
    (hh100 : hh < 100) (hmm100 : mm < 100) (hy : y < 10000)
    (ha : isAlphaC a = true) (hb : isAlphaC b = true) (hc : isAlphaC c = true)
    (hmon : monLookup (String.mk [a, b, c]) = some mval) :
    parse_post_date (.str (mkDateStringTok hh mm 32 (String.mk [a, b, c]) y)) = none := by
  rw [parse_post_date_form hh mm 32 y a b c hh100 hmm100 (by omega) hy ha hb hc, hmon]
  show mkDatetime y mval 32 hh mm = none
  unfold mkDatetime
  rw [if_neg]
  rintro ⟨-, -, -, -, -, h32, -, -⟩
  have := daysInMonth_le_31 y mval
  omega

/-- Claim C4: invalid input comes back as the sentinel, never an error:
non-strings, strings the regular expression does not match anywhere, an
out-of-range day such as 32 in an otherwise valid date string, and an
unrecognized month abbreviation. -/
theorem parse_post_date_rejects_invalid :
    parse_post_date .nonStr = none ∧
    (∀ s : String, dateSearch s.toList = none → parse_post_date (.str s) = none) ∧
    (∀ hh mm mo y : Nat, hh ≤ 23 → mm ≤ 59 → 1 ≤ mo → mo ≤ 12 → 1 ≤ y → y ≤ 9999 →
      parse_post_date (.str (mkDateString hh mm 32 mo y)) = none) ∧
    parse_post_date (.str ("Posted 09:00 1 Xyz 2025")) = none := by
  refine ⟨rfl, ?_, ?_, by decide⟩
  · intro s h
    have hdata : dateSearch s.data = none := h
    simp [parse_post_date, hdata]
  · intro hh mm mo y h1 h2 h3 h4 h5 h6
    interval_cases mo
    · rw [show mkDateString hh mm 32 1 y = mkDateStringTok hh mm 32 (String.mk ['J', 'a', 'n']) y
          from rfl]
      exact day32_case hh mm y 1 'J' 'a' 'n' (by omega) (by omega) (by omega)
        (by decide) (by decide) (by decide) (by decide)
    · rw [show mkDateString hh mm 32 2 y = mkDateStringTok hh mm 32 (String.mk ['F', 'e', 'b']) y
          from rfl]
      exact day32_case hh mm y 2 'F' 'e' 'b' (by omega) (by omega) (by omega)
        (by decide) (by decide) (by decide) (by decide)
    · rw [show mkDateString hh mm 32 3 y = mkDateStringTok hh mm 32 (String.mk ['M', 'a', 'r']) y
          from rfl]
      exact day32_case hh mm y 3 'M' 'a' 'r' (by omega) (by omega) (by omega)
        (by decide) (by decide) (by decide) (by decide)
    · rw [show mkDateString hh mm 32 4 y = mkDateStringTok hh mm 32 (String.mk ['A', 'p', 'r']) y
          from rfl]
      exact day32_case hh mm y 4 'A' 'p' 'r' (by omega) (by omega) (by omega)
        (by decide) (by decide) (by decide) (by decide)
    · rw [show mkDateString hh mm 32 5 y = mkDateStringTok hh mm 32 (String.mk ['M', 'a', 'y']) y
          from rfl]
      exact day32_case hh mm y 5 'M' 'a' 'y' (by omega) (by omega) (by omega)
        (by decide) (by decide) (by decide) (by decide)
    · rw [show mkDateString hh mm 32 6 y = mkDateStringTok hh mm 32 (String.mk ['J', 'u', 'n']) y
          from rfl]
      exact day32_case hh mm y 6 'J' 'u' 'n' (by omega) (by omega) (by omega)
        (by decide) (by decide) (by decide) (by decide)
    · rw [show mkDateString hh mm 32 7 y = mkDateStringTok hh mm 32 (String.mk ['J', 'u', 'l']) y
          from rfl]
      exact day32_case hh mm y 7 'J' 'u' 'l' (by omega) (by omega) (by omega)
        (by decide) (by decide) (by decide) (by decide)
    · rw [show mkDateString hh mm 32 8 y = mkDateStringTok hh mm 32 (String.mk ['A', 'u', 'g']) y
          from rfl]
      exact day32_case hh mm y 8 'A' 'u' 'g' (by omega) (by omega) (by omega)
        (by decide) (by decide) (by decide) (by decide)
    · rw [show mkDateString hh mm 32 9 y = mkDateStringTok hh mm 32 (String.mk ['S', 'e', 'p']) y
          from rfl]
      exact day32_case hh mm y 9 'S' 'e' 'p' (by omega) (by omega) (by omega)
        (by decide) (by decide) (by decide) (by decide)
    · rw [show mkDateString hh mm 32 10 y = mkDateStringTok hh mm 32 (String.mk ['O', 'c', 't']) y
          from rfl]
      exact day32_case hh mm y 10 'O' 'c' 't' (by omega) (by omega) (by omega)
        (by decide) (by decide) (by decide) (by decide)
    · rw [show mkDateString hh mm 32 11 y = mkDateStringTok hh mm 32 (String.mk ['N', 'o', 'v']) y
          from rfl]
      exact day32_case hh mm y 11 'N' 'o' 'v' (by omega) (by omega) (by omega)
        (by decide) (by decide) (by decide) (by decide)
    · rw [show mkDateString hh mm 32 12 y = mkDateStringTok hh mm 32 (String.mk ['D', 'e', 'c']) y
          from rfl]
      exact day32_case hh mm y 12 'D' 'e' 'c' (by omega) (by omega) (by omega)
        (by decide) (by decide) (by decide) (by decide)

/-- Claim C4, witness: a plain word, and day 32 in January 2025. -/
theorem parse_post_date_rejects_invalid_witness :
    parse_post_date (.str ("hello")) = none ∧
    parse_post_date (.str (mkDateString 9 0 32 1 2025)) = none :=
  ⟨parse_post_date_rejects_invalid.2.1 ("hello") (by decide),
   parse_post_date_rejects_invalid.2.2.1 9 0 1 2025 (by decide) (by decide) (by decide)
     (by decide) (by decide) (by decide)⟩

/-- Claim C10: the month lookup is case-sensitive: in an otherwise valid
date string, any three-letter month token outside the table (for example
`"JAN"` or `"jan"`, which the regular expression accepts) yields the
sentinel. -/
theorem parse_post_date_month_case_sensitive (hh mm d y : Nat) (a b c : Char)
    (hhh : hh ≤ 23) (hmm' : mm ≤ 59) (hd1 : 1 ≤ d) (hd2 : d ≤ 31)
    (hy1 : 1 ≤ y) (hy2 : y ≤ 9999)
    (ha : isAlphaC a = true) (hb : isAlphaC b = true) (hc : isAlphaC c = true)
    (hnot : String.mk [a, b, c] ∉ MON.map Prod.fst) :
    parse_post_date (.str (mkDateStringTok hh mm d (String.mk [a, b, c]) y)) = none := by
  have hmon : monLookup (String.mk [a, b, c]) = none := by
    rw [monLookup, List.find?_eq_none.2, Option.map_none']
    intro x hx
    simp only [decide_eq_true_eq]
    intro hEq
    exact hnot (List.mem_map.2 ⟨x, hx, hEq⟩)
  rw [parse_post_date_form hh mm d y a b c (by omega) (by omega) (by omega) (by omega) ha hb hc,
      hmon]

/-- Claim C10, witness: `"Posted 09:00 1 JAN 2025"` parses to the sentinel. -/
theorem parse_post_date_month_case_sensitive_witness :
    parse_post_date (.str (mkDateStringTok 9 0 1 (String.mk ['J', 'A', 'N']) 2025)) = none :=
  parse_post_date_month_case_sensitive 9 0 1 2025 'J' 'A' 'N' (by decide) (by decide)
    (by decide) (by decide) (by decide) (by decide) (by decide) (by decide) (by decide)
    (by decide)

/-! ### Bucket classifier

The eleven `BUCKET_PATTERNS` regular expressions use only literals,
character classes, alternation `|`, optional pieces `?` and word
boundaries `\b` — no unbounded repetition — so a finite regex language
with a backtracking matcher embeds them exactly.  `re.I` is applied by
comparing characters through ASCII lowercasing, and `\w` (for `\b`) is
modelled over its ASCII range. -/

/-- Regular expressions without repetition: empty string, single-character
predicate, concatenation, alternation, and the word boundary `\b`. -/
inductive RE where
  | eps
  | tok (p : Char → Bool)
  | seq (a b : RE)
  | alt (a b : RE)
  | wb


/-- Python `\w` over ASCII: letters, digits, underscore. -/
def isWordC (c : Char) : Bool := isAlphaC c || isDigitC c || c = '_'

/-- `\b` holds between a word character and a non-word character (string
ends count as non-word). -/
def atBoundary (prev : Option Char) (cs : List Char) : Bool :=
  let pw := match prev with | none => false | some c => isWordC c
  let nw := match cs with | [] => false | c :: _ => isWordC c
  pw != nw

/-- ASCII lowercasing for `re.I`. -/
def lowerC (c : Char) : Char := if 'A' ≤ c && c ≤ 'Z' then Char.ofNat (c.toNat + 32) else c

/-- A case-insensitive literal character. -/
def lit (c : Char) : RE := .tok (fun x => lowerC x = lowerC c)

/-- A case-insensitive literal string. -/
def rstr (s : String) : RE := s.toList.foldr (fun c r => RE.seq (lit c) r) RE.eps

/-- Alternation of a non-empty list of branches, left to right. -/
def ralts : List RE → RE
  | [] => RE.eps
  | [r] => r
  | r :: rs => RE.alt r (ralts rs)

/-- An optional piece `X?`. -/
def ropt (r : RE) : RE := RE.alt r RE.eps

/-- A character class of explicit alternatives. -/
def anyOf (cs : List Char) : RE := ralts (cs.map lit)

/-- Backtracking matcher in continuation style: `reMatch r prev cs k` is
true when some split of `cs` lets `r` match a prefix and `k` accept the
remainder.  `prev` carries the character before the current position for
`\b`. -/
def reMatch : RE → Option Char → List Char → (Option Char → List Char → Bool) → Bool
  | .eps, prev, cs, k => k prev cs
  | .tok _, _, [], _ => false
  | .tok p, _, c :: cs, k => p c && k (some c) cs
  | .seq a b, prev, cs, k => reMatch a prev cs (fun p2 cs2 => reMatch b p2 cs2 k)
  | .alt a b, prev, cs, k => reMatch a prev cs k || reMatch b prev cs k
  | .wb, prev, cs, k => atBoundary prev cs && k prev cs

/-- `pattern.search`: try a match at every position, left to right. -/
def reSearchAux (r : RE) : Option Char → List Char → Bool
  | prev, cs =>
    reMatch r prev cs (fun _ _ => true) ||
      match cs with
      | [] => false
      | c :: rest => reSearchAux r (some c) rest

/-- `COMPILED[name].search(text)` as a Boolean. -/
def reSearch (r : RE) (s : String) : Bool := reSearchAux r none s.toList

/-- Pattern of bucket `self_blame`. -/
def pat_self_blame : RE :=
  .seq .wb (.seq (ralts [
    .seq (rstr ("hate")) (.seq (ropt (anyOf ['s', 'd'])) (.seq (lit ' ')
      (ralts [rstr ("myself"), rstr ("me")]))),
    .seq (rstr ("everyone hate")) (.seq (ropt (anyOf ['s', 'd'])) (rstr (" me"))),
    rstr ("worthless"),
    .seq (rstr ("i ")) (.seq (ralts [rstr ("don't"), rstr ("do not")])
      (rstr (" deserve to live"))),
    .seq (rstr ("i")) (.seq (ropt (lit '\'')) (rstr ("m a failure"))),
    rstr ("blame myself"),
    rstr ("all my fault")]) .wb)

/-- Pattern of bucket `cost_concern`. -/
def pat_cost_concern : RE :=
  .seq .wb (.seq (ralts [
    .seq (rstr ("can")) (.seq (ropt (lit '\'')) (rstr ("t afford"))),
    rstr ("too expensive"),
    rstr ("cost of therapy"),
    rstr ("insurance won't"),
    rstr ("no money for help")]) .wb)

/-- Pattern of bucket `work_burnout`. -/
def pat_work_burnout : RE :=
  .seq .wb (.seq (ralts [
    rstr ("burnt out"),
    rstr ("burned out"),
    rstr ("toxic work"),
    rstr ("overworked"),
    rstr ("study burnout"),
    rstr ("no work life balance"),
    rstr ("exhausted from work")]) .wb)

/-- Pattern of bucket `self_harm`. -/
def pat_self_harm : RE :=
  .seq .wb (.seq (ralts [
    rstr ("kill myself"),
    rstr ("end my life"),
    .seq (rstr ("suicid")) (ralts [lit 'e', rstr ("al")]),
    .seq (rstr ("self")) (.seq (ropt (anyOf ['-', ' '])) (rstr ("harm"))),
    rstr ("cutting myself"),
    rstr ("hurting myself")]) .wb)

/-- Pattern of bucket `relationship_breakup`. -/
def pat_relationship_breakup : RE :=
  .seq .wb (.seq (ralts [
    .seq (rstr ("break")) (.seq (ropt (anyOf ['-', ' '])) (rstr ("up"))),
    .seq (rstr ("dump")) (ropt (rstr ("ed"))),
    .seq (rstr ("heart")) (.seq (ropt (lit ' ')) (rstr ("broken"))),
    .seq (rstr ("lost my ")) (ralts [rstr ("partner"), rstr ("girlfriend"), rstr ("boyfriend")]),
    rstr ("she left me"),
    rstr ("he left me")]) .wb)

/-- Pattern of bucket `friendship_drama`. -/
def pat_friendship_drama : RE :=
  .seq .wb (.seq (ralts [
    .seq (rstr ("friend")) (.seq (ropt (rstr ("ship"))) (.seq (lit ' ')
      (ralts [.seq (rstr ("ignore")) (ropt (lit 'd')),
              .seq (rstr ("ghost")) (ropt (rstr ("ed"))),
              rstr ("lost")]))),
    .seq (rstr ("no friend")) (ropt (lit 's')),
    rstr ("friends don't care")]) .wb)

/-- Pattern of bucket `crying_distress`. -/
def pat_crying_distress : RE :=
  .seq .wb (.seq (ralts [
    .seq (rstr ("can")) (.seq (ropt (lit '\'')) (rstr ("t stop crying"))),
    rstr ("keep on crying"),
    rstr ("crying every night"),
    rstr ("cry myself to sleep")]) .wb)

/-- Pattern of bucket `depression_misery`. -/
def pat_depression_misery : RE :=
  .seq .wb (.seq (ralts [
    .seq (rstr ("i")) (.seq (ropt (anyOf ['\'', '’'])) (.seq (rstr ("m "))
      (.seq (ropt (rstr ("so ")))
        (ralts [rstr ("depressed"), rstr ("miserable"), rstr ("numb"), rstr ("empty")])))),
    rstr ("i feel dead inside"),
    rstr ("life is meaningless"),
    rstr ("hopeless"),
    rstr ("no reason to live"),
    rstr ("can't go on"),
    rstr ("don't want to exist"),
    rstr ("done with life")]) .wb)

/-- Pattern of bucket `loneliness_isolation`. -/
def pat_loneliness_isolation : RE :=
  .seq .wb (.seq (ralts [
    .seq (rstr ("i")) (.seq (ropt (anyOf ['\'', '’'])) (.seq (rstr ("m "))
      (.seq (ropt (rstr ("so ")))
        (ralts [rstr ("lonely"), rstr ("alone"), rstr ("isolated")])))),
    .seq (rstr ("nobody ")) (ralts [rstr ("cares"), rstr ("loves me")]),
    rstr ("no one to talk to"),
    rstr ("feel invisible"),
    rstr ("no support system"),
    rstr ("abandoned")]) .wb)

/-- Pattern of bucket `family_conflict`. -/
def pat_family_conflict : RE :=
  .seq .wb (.seq (ralts [
    .seq (rstr ("my ")) (.seq (ralts [rstr ("mom"), rstr ("dad"), rstr ("parents"), rstr ("family")])
      (.seq (lit ' ')
        (ralts [rstr ("hate me"), rstr ("don't understand"), rstr ("abusive"),
                rstr ("arguing"), rstr ("don't care")]))),
    .seq (rstr ("fight with ")) (ralts [rstr ("mom"), rstr ("dad"), rstr ("family")]),
    rstr ("toxic family"),
    rstr ("family pressure"),
    rstr ("neglect")]) .wb)

/-- Pattern of bucket `family_loss_or_absence`. -/
def pat_family_loss_or_absence : RE :=
  .seq .wb (.seq (ralts [
    .seq (rstr ("i miss my ")) (ralts [rstr ("mom"), rstr ("dad"), rstr ("parent"), rstr ("family")]),
    .seq (rstr ("grew up without ")) (.seq (ralts [rstr ("a"), rstr ("my")])
      (.seq (lit ' ') (ralts [rstr ("dad"), rstr ("mom")]))),
    rstr ("orphan"),
    rstr ("parent passed away"),
    .seq (rstr ("lost ")) (.seq (ropt (rstr ("my ")))
      (ralts [rstr ("dad"), rstr ("mom"), rstr ("guardian")]))]) .wb)

/-- `COMPILED`: the insertion-ordered name → pattern dictionary (Python
dicts preserve insertion order, so iteration follows this list). -/
def COMPILED : List (String × RE) :=
  [("self_blame", pat_self_blame),
   ("cost_concern", pat_cost_concern),
   ("work_burnout", pat_work_burnout),
   ("self_harm", pat_self_harm),
   ("relationship_breakup", pat_relationship_breakup),
   ("friendship_drama", pat_friendship_drama),
   ("crying_distress", pat_crying_distress),
   ("depression_misery", pat_depression_misery),
   ("loneliness_isolation", pat_loneliness_isolation),
   ("family_conflict", pat_family_conflict),
   ("family_loss_or_absence", pat_family_loss_or_absence)]

/-- The loop body of `tag_bucket` over the remaining dictionary items. -/
def tagBucketStr (l : List (String × RE)) (s : String) : String :=
  match l with
  | [] => "other"
  | (n, r) :: rest => if reSearch r s then n else tagBucketStr rest s

/-- `tag_bucket`: non-strings classify to `"other"`; strings get the first
matching bucket in dictionary order, else `"other"`. -/
def tag_bucket (v : CellValue) : String :=
  match v with
  | .nonStr => "other"
  | .str s => tagBucketStr COMPILED s

theorem tagBucketStr_mem (l : List (String × RE)) (s : String) :
    tagBucketStr l s ∈ ("other" :: l.map Prod.fst) := by
  induction l with
  | nil => simp [tagBucketStr]
  | cons hd tl ih =>
    rcases hd with ⟨n, r⟩
    by_cases h : reSearch r s
    · simp [tagBucketStr, h]
    · simp only [tagBucketStr, if_neg h]
      rcases List.mem_cons.1 ih with h1 | h1
      · exact List.mem_cons.2 (Or.inl h1)
      · exact List.mem_cons.2 (Or.inr (List.mem_cons.2 (Or.inr h1)))

/-- Claim C1: `tag_bucket` is total — on every value, string or not
(empty, whitespace and non-ASCII strings included), it returns one of the
eleven configured bucket names or `"other"`; being a total Lean function,
it can raise nothing. -/
theorem tag_bucket_total (v : CellValue) :
    tag_bucket v ∈ ["other", "self_blame", "cost_concern", "work_burnout", "self_harm",
      "relationship_breakup", "friendship_drama", "crying_distress", "depression_misery",
      "loneliness_isolation", "family_conflict", "family_loss_or_absence"] := by
  have hnames : ("other" :: COMPILED.map Prod.fst) =
      ["other", "self_blame", "cost_concern", "work_burnout", "self_harm",
       "relationship_breakup", "friendship_drama", "crying_distress", "depression_misery",
       "loneliness_isolation", "family_conflict", "family_loss_or_absence"] := rfl
  cases v with
  | nonStr => rw [← hnames]; exact List.mem_cons.2 (Or.inl rfl)
  | str s => rw [← hnames]; exact tagBucketStr_mem COMPILED s

/-- Claim C1, witness: evaluation at a concrete string. -/
theorem tag_bucket_total_witness :
    tag_bucket (.str ("hello")) ∈ ["other", "self_blame", "cost_concern", "work_burnout",
      "self_harm", "relationship_breakup", "friendship_drama", "crying_distress",
      "depression_misery", "loneliness_isolation", "family_conflict",
      "family_loss_or_absence"] :=
  tag_bucket_total (.str ("hello"))

theorem tagBucketStr_first (l : List (String × RE)) (s : String) (i : Nat) (hi : i < l.length)
    (hm : reSearch (l.get ⟨i, hi⟩).2 s = true)
    (hmin : ∀ p ∈ l.take i, reSearch p.2 s = false) :
    tagBucketStr l s = (l.get ⟨i, hi⟩).1 := by
  induction l generalizing i with
  | nil => exact absurd hi (Nat.not_lt_zero i)
  | cons hd tl ih =>
    rcases hd with ⟨nm, r⟩
    cases i with
    | zero =>
      simp only [List.get] at hm ⊢
      simp [tagBucketStr, hm]
    | succ n =>
      have h0 : reSearch r s = false := by
        exact hmin (nm, r) (by simp [List.take])
      simp only [tagBucketStr, h0, Bool.false_eq_true, if_false]
      simp only [List.get] at hm ⊢
      exact ih n (Nat.lt_of_succ_lt_succ hi) hm
        (fun p hp => hmin p (by simp only [List.take]; exact List.mem_cons.2 (Or.inr hp)))

/-- Claim C2: when the pattern at position `i` of the insertion-ordered
dictionary matches and no earlier pattern does, `tag_bucket` returns the
name at position `i` — the first match in configured order wins, with no
dependence on any hash order (the embedding fixes the dictionary as the
insertion-ordered list `COMPILED`, which is what Python dict iteration
follows). -/
theorem tag_bucket_first_match (s : String) (i : Nat) (hi : i < COMPILED.length)
    (hm : reSearch (COMPILED.get ⟨i, hi⟩).2 s = true)
    (hmin : ∀ p ∈ COMPILED.take i, reSearch p.2 s = false) :
    tag_bucket (.str s) = (COMPILED.get ⟨i, hi⟩).1 :=
  tagBucketStr_first COMPILED s i hi hm hmin

/-- Claim C2, witness: `"i'm depressed and nobody cares"` matches both
`depression_misery` (position 7) and `loneliness_isolation` (position 8);
the classifier returns the earlier one. -/
theorem tag_bucket_first_match_witness :
    tag_bucket (.str ("i'm depressed and nobody cares")) = "depression_misery" ∧
    reSearch pat_loneliness_isolation ("i'm depressed and nobody cares") = true :=
  ⟨tag_bucket_first_match ("i'm depressed and nobody cares") 7 (by decide) (by decide)
    (by decide),
   by decide⟩

/-! ### Display pipeline: date filter, bucket filter, daily pivot

The three modes (Excel, Reddit, YouTube) share the same display code: a
row is a post with a `Post_dt` timestamp (possibly `NaT`), a `Bucket`
label, an optional community column (`Subreddit` / `Video Title`) and the
`Post Content` text.  The embedding keeps the rows as a list. -/

/-- A calendar date, as produced by `Post_dt.dt.date`. -/
structure PDate where
  year : Nat
  month : Nat
  day : Nat
deriving DecidableEq, Repr

/-- The date of a timestamp. -/
def PDateTime.date (t : PDateTime) : PDate := ⟨t.year, t.month, t.day⟩

/-- Comparison of dates (Python compares `datetime.date` values
lexicographically by year, month, day). -/
def dateLe (a b : PDate) : Bool :=
  a.year < b.year ||
    (a.year = b.year && (a.month < b.month || (a.month = b.month && a.day ≤ b.day)))

/-- One row of the loaded dataframe. -/
structure Post where
  ts : Option PDateTime
  bucket : String
  community : Option String
  content : String
deriving DecidableEq, Repr

/-- `df.dropna(subset=["Post_dt"])` followed by the date-window mask
`(dt.date >= start_d) & (dt.date <= end_d)`. -/
def df_filtered_date (posts : List Post) (s e : PDate) : List Post :=
  (posts.filter (fun p => p.ts.isSome)).filter (fun p =>
    match p.ts with
    | some t => dateLe s t.date && dateLe t.date e
    | none => false)

/-- Claim C6: a post survives the date filter exactly when its timestamp
is parseable (not the `NaT` sentinel) and its calendar date lies in
`[start, end]`, both ends included; `NaT` rows never appear in a
date-bounded view. -/
theorem df_filtered_date_mem (posts : List Post) (s e : PDate) (p : Post) :
    p ∈ df_filtered_date posts s e ↔
      p ∈ posts ∧ ∃ t, p.ts = some t ∧ dateLe s t.date = true ∧ dateLe t.date e = true := by
  simp only [df_filtered_date, List.mem_filter, and_assoc]
  cases hts : p.ts with
  | none => simp [hts]
  | some t => simp [hts]

/-- `df_filtered_date[Bucket].isin(sel_buckets)`. -/
def df_filtered_buckets (posts : List Post) (sel : List String) : List Post :=
  posts.filter (fun p => sel.contains p.bucket)

/-- Claim C7: with an empty selection the bucket filter returns the empty
set (not "all"), and in general a post survives it exactly when its
bucket is a member of the selection. -/
theorem df_filtered_buckets_mem (posts : List Post) (sel : List String) :
    df_filtered_buckets posts [] = [] ∧
      ∀ p, (p ∈ df_filtered_buckets posts sel ↔ p ∈ posts ∧ p.bucket ∈ sel) := by
  constructor
  · simp [df_filtered_buckets]
  · intro p
    simp [df_filtered_buckets, List.mem_filter]

/-- Total order key on dates; injective on the dates the pipeline builds. -/
def dateKey (d : PDate) : Nat := d.year * 10000 + d.month * 100 + d.day

/-- Sorted-insert with deduplication, building the pivot index. -/
def insertDay (d : PDate) : List PDate → List PDate
  | [] => [d]
  | e :: es =>
    if dateKey d < dateKey e then d :: e :: es
    else if d = e then e :: es
    else e :: insertDay d es

/-- The row index of
`pivot_table(index="day", columns="Bucket", ...)`: the sorted distinct
days occurring in the frame (`pivot_table` sorts its index and creates
one row per day that occurs — it does not reindex over the full window). -/
def trendDayList (posts : List Post) : List PDate :=
  posts.foldr
    (fun p acc =>
      match p.ts with
      | some t => insertDay t.date acc
      | none => acc)
    []

/-- Whether a row falls on a given day. -/
def postOnDay (p : Post) (d : PDate) : Bool :=
  match p.ts with
  | some t => decide (t.date = d)
  | none => false

/-- One cell of the pivot after `.fillna(0)`: the count of rows of the
day × bucket group (0 when the group is empty but the day row exists). -/
def trendCell (posts : List Post) (d : PDate) (b : String) : Nat :=
  (posts.filter (fun p => postOnDay p d && p.bucket = b)).length

theorem insertDay_mem (d x : PDate) (l : List PDate) :
    x ∈ insertDay d l ↔ x = d ∨ x ∈ l := by
  induction l with
  | nil => simp [insertDay]
  | cons e es ih =>
    by_cases h1 : dateKey d < dateKey e
    · simp [insertDay, h1]
    · by_cases h2 : d = e
      · subst h2
        simp only [insertDay, if_neg h1, if_pos rfl]
        constructor
        · exact fun h => Or.inr h
        · rintro (h | h)
          · exact h ▸ List.mem_cons_self d es
          · exact h
      · simp only [insertDay, if_neg h1, if_neg h2, List.mem_cons, ih]
        tauto

theorem insertDay_sorted (d : PDate) (l : List PDate)
    (h : l.Pairwise (fun a b => dateKey a ≤ dateKey b)) :
    (insertDay d l).Pairwise (fun a b => dateKey a ≤ dateKey b) := by
  induction l with
  | nil => simp [insertDay]
  | cons e es ih =>
    rcases List.pairwise_cons.1 h with ⟨he, hes⟩
    by_cases h1 : dateKey d < dateKey e
    · simp only [insertDay, if_pos h1]
      refine List.pairwise_cons.2 ⟨?_, h⟩
      intro x hx
      rcases List.mem_cons.1 hx with h2 | h2
      · exact le_of_lt (h2 ▸ h1)
      · exact le_trans (le_of_lt h1) (he x h2)
    · by_cases h2 : d = e
      · simp only [insertDay, if_neg h1, if_pos h2]
        exact h
      · simp only [insertDay, if_neg h1, if_neg h2]
        refine List.pairwise_cons.2 ⟨?_, ih hes⟩
        intro x hx
        rcases (insertDay_mem d x es).1 hx with h3 | h3
        · exact h3 ▸ Nat.le_of_not_lt h1
        · exact he x h3

theorem insertDay_nodup (d : PDate) (l : List PDate)
    (hs : l.Pairwise (fun a b => dateKey a ≤ dateKey b)) (h : l.Nodup) :
    (insertDay d l).Nodup := by
  induction l with
  | nil => simp [insertDay]
  | cons e es ih =>
    rcases List.pairwise_cons.1 hs with ⟨he, hes⟩
    rcases List.nodup_cons.1 h with ⟨hne, hnd⟩
    by_cases h1 : dateKey d < dateKey e
    · simp only [insertDay, if_pos h1]
      refine List.nodup_cons.2 ⟨?_, h⟩
      intro hx
      rcases List.mem_cons.1 hx with h2 | h2
      · exact absurd (h2 ▸ h1) (lt_irrefl _)
      · exact absurd h1 (Nat.not_lt_of_le (he d h2))
    · by_cases h2 : d = e
      · simp only [insertDay, if_neg h1, if_pos h2]
        exact h
      · simp only [insertDay, if_neg h1, if_neg h2]
        refine List.nodup_cons.2 ⟨?_, ih hes hnd⟩
        intro hx
        rcases (insertDay_mem d e es).1 hx with h3 | h3
        · exact h2 h3.symm
        · exact hne h3

theorem trendDayList_sorted (posts : List Post) :
    (trendDayList posts).Pairwise (fun a b => dateKey a ≤ dateKey b) ∧
      (trendDayList posts).Nodup := by
  induction posts with
  | nil => simp [trendDayList]
  | cons p ps ih =>
    rcases ih with ⟨hs, hn⟩
    cases hts : p.ts with
    | none => simpa [trendDayList, hts] using ⟨hs, hn⟩
    | some t =>
      simp only [trendDayList, List.foldr_cons, hts]
      exact ⟨insertDay_sorted _ _ hs, insertDay_nodup _ _ hs hn⟩

theorem trendDayList_mem (posts : List Post) (d : PDate) :
    d ∈ trendDayList posts ↔ ∃ p ∈ posts, ∃ t, p.ts = some t ∧ t.date = d := by
  induction posts with
  | nil => simp [trendDayList]
  | cons p ps ih =>
    cases hts : p.ts with
    | none =>
      simp only [trendDayList, List.foldr_cons, hts]
      rw [show (ps.foldr (fun p acc =>
            match p.ts with
            | some t => insertDay t.date acc
            | none => acc) []) = trendDayList ps from rfl]
      rw [ih]
      constructor
      · rintro ⟨q, hq, t, ht, hd⟩
        exact ⟨q, List.mem_cons.2 (Or.inr hq), t, ht, hd⟩
      · rintro ⟨q, hq, t, ht, hd⟩
        rcases List.mem_cons.1 hq with h | h
        · subst h; rw [hts] at ht; cases ht
        · exact ⟨q, h, t, ht, hd⟩
    | some t =>
      simp only [trendDayList, List.foldr_cons, hts]
      rw [show (ps.foldr (fun p acc =>
            match p.ts with
            | some t => insertDay t.date acc
            | none => acc) []) = trendDayList ps from rfl]
      rw [insertDay_mem, ih]
      constructor
      · rintro (h | ⟨q, hq, u, hu, hd⟩)
        · exact ⟨p, List.mem_cons_self p ps, t, hts, h.symm⟩
        · exact ⟨q, List.mem_cons.2 (Or.inr hq), u, hu, hd⟩
      · rintro ⟨q, hq, u, hu, hd⟩
        rcases List.mem_cons.1 hq with h | h
        · subst h; rw [hts] at hu; cases hu
          exact Or.inl hd.symm
        · exact Or.inr ⟨q, h, u, hu, hd⟩

/-- Demo rows for the pivot counterexample: two posts, on the 1st and the
3rd of January 2025, both in bucket `"a"`. -/
def demoPosts : List Post :=
  [⟨some ⟨2025, 1, 1, 9, 0⟩, "a", none, "x"⟩,
   ⟨some ⟨2025, 1, 3, 9, 0⟩, "a", none, "y"⟩]

/-- Claim C5, counterexample: over the three-day window 2025-01-01 ..
2025-01-03 (`N = 3`), the pivot built from `demoPosts` has only two rows —
the day with no posts is omitted, so the claimed `N` rows per category
(and the gap-free series) do not exist. -/
theorem trend_pivot_gap :
    (df_filtered_date demoPosts ⟨2025, 1, 1⟩ ⟨2025, 1, 3⟩).length = 2 ∧
    ¬ (trendDayList (df_filtered_date demoPosts ⟨2025, 1, 1⟩ ⟨2025, 1, 3⟩)).length = 3 ∧
    ¬ ⟨2025, 1, 2⟩ ∈ trendDayList (df_filtered_date demoPosts ⟨2025, 1, 1⟩ ⟨2025, 1, 3⟩) := by
  refine ⟨by decide, by decide, by decide⟩

/-- Claim C5 (amended): the pivot index holds exactly the distinct days on
which the date-filtered data has at least one post — sorted and without
duplicates, but with days that have no posts at all omitted — and for
every present day each bucket's cell is the count of that day × bucket
group, `0` (after `fillna(0)`) when the bucket has no posts that day. -/
theorem trend_pivot_shape (posts : List Post) (s e : PDate) :
    (∀ d, d ∈ trendDayList (df_filtered_date posts s e) ↔
        ∃ p ∈ df_filtered_date posts s e, ∃ t, p.ts = some t ∧ t.date = d) ∧
    (trendDayList (df_filtered_date posts s e)).Pairwise (fun a b => dateKey a ≤ dateKey b) ∧
    (trendDayList (df_filtered_date posts s e)).Nodup ∧
    (∀ d b, trendCell (df_filtered_date posts s e) d b =
        ((df_filtered_date posts s e).filter
          (fun p => postOnDay p d && p.bucket = b)).length) ∧
    (∀ d b, (∀ p ∈ df_filtered_date posts s e, (postOnDay p d && p.bucket = b) = false) →
        trendCell (df_filtered_date posts s e) d b = 0) := by
  refine ⟨fun d => trendDayList_mem _ d, (trendDayList_sorted _).1, (trendDayList_sorted _).2,
    fun d b => rfl, fun d b h => ?_⟩
  simp only [trendCell, List.length_eq_zero]
  exact List.filter_eq_nil_iff.2 (fun p hp => by simp [h p hp])

/-! ### Top sources (`show_top_sources`)

`df[source_col].fillna("Unknown").value_counts().head(10)`.  The pandas
`value_counts` is modelled per its semantics on object columns: unique
values in first-seen order with their counts, sorted by count descending
with a stable sort; `head(10)` is `take 10`. -/

/-- `fillna("Unknown")` on a community column. -/
def fillUnknown (col : List (Option String)) : List String :=
  col.map (fun o => o.getD ("Unknown"))

/-- Unique values in order of first appearance. -/
def firstSeen (l : List String) : List String :=
  l.foldl (fun acc s => if s ∈ acc then acc else acc ++ [s]) []

/-- Unique values, first-seen order, paired with their occurrence counts. -/
def uniqCounts (l : List String) : List (String × Nat) :=
  (firstSeen l).map (fun s => (s, l.count s))

/-- Stable insertion for a descending sort by count: an element passes
only entries with strictly greater count, so equal counts keep their
original relative order. -/
def insertByCount (x : String × Nat) : List (String × Nat) → List (String × Nat)
  | [] => [x]
  | y :: ys => if y.2 ≤ x.2 then x :: y :: ys else y :: insertByCount x ys

/-- Stable sort by count, descending. -/
def sortByCountDesc (l : List (String × Nat)) : List (String × Nat) :=
  l.foldr insertByCount []

/-- `Series.value_counts()`: counts of unique values, most frequent first. -/
def value_counts (l : List String) : List (String × Nat) :=
  sortByCountDesc (uniqCounts l)

/-- `show_top_sources`' ranking:
`df[source_col].fillna("Unknown").value_counts().head(10)`. -/
def topSources (col : List (Option String)) : List (String × Nat) :=
  (value_counts (fillUnknown col)).take 10

theorem insertByCount_mem (x p : String × Nat) (l : List (String × Nat)) :
    p ∈ insertByCount x l ↔ p = x ∨ p ∈ l := by
  induction l with
  | nil => simp [insertByCount]
  | cons y ys ih =>
    by_cases h : y.2 ≤ x.2
    · simp [insertByCount, h]
    · simp only [insertByCount, if_neg h, List.mem_cons, ih]
      tauto

theorem insertByCount_sorted (x : String × Nat) (l : List (String × Nat))
    (h : l.Pairwise (fun a b => b.2 ≤ a.2)) :
    (insertByCount x l).Pairwise (fun a b => b.2 ≤ a.2) := by
  induction l with
  | nil => simp [insertByCount]
  | cons y ys ih =>
    rcases List.pairwise_cons.1 h with ⟨hy, hys⟩
    by_cases h1 : y.2 ≤ x.2
    · simp only [insertByCount, if_pos h1]
      refine List.pairwise_cons.2 ⟨?_, h⟩
      intro z hz
      rcases List.mem_cons.1 hz with h2 | h2
      · exact h2 ▸ h1
      · exact le_trans (hy z h2) h1
    · simp only [insertByCount, if_neg h1]
      refine List.pairwise_cons.2 ⟨?_, ih hys⟩
      intro z hz
      rcases (insertByCount_mem x z ys).1 hz with h2 | h2
      · exact h2 ▸ Nat.le_of_not_le h1
      · exact hy z h2

theorem sortByCountDesc_sorted (l : List (String × Nat)) :
    (sortByCountDesc l).Pairwise (fun a b => b.2 ≤ a.2) := by
  induction l with
  | nil => simp [sortByCountDesc]
  | cons x xs ih => exact insertByCount_sorted x _ ih

theorem sortByCountDesc_mem (p : String × Nat) (l : List (String × Nat)) :
    p ∈ sortByCountDesc l ↔ p ∈ l := by
  induction l with
  | nil => simp [sortByCountDesc]
  | cons x xs ih =>
    simp only [sortByCountDesc, List.foldr_cons]
    rw [insertByCount_mem]
    rw [show xs.foldr insertByCount [] = sortByCountDesc xs from rfl, ih]
    simp [List.mem_cons]

/-- Stability: inserting an element does not disturb the subsequence of a
fixed count value, and an inserted element of that count lands in front of
it (it passes only strictly greater counts). -/
theorem insertByCount_filter (x : String × Nat) (l : List (String × Nat)) (c : Nat) :
    (insertByCount x l).filter (fun p => p.2 = c) =
      (if x.2 = c then [x] else []) ++ l.filter (fun p => p.2 = c) := by
  induction l with
  | nil =>
    by_cases h : x.2 = c <;> simp [insertByCount, List.filter, h]
  | cons y ys ih =>
    by_cases h1 : y.2 ≤ x.2
    · simp only [insertByCount, if_pos h1]
      by_cases hx : x.2 = c <;> simp [List.filter_cons, hx]
    · simp only [insertByCount, if_neg h1]
      by_cases hy : y.2 = c
      · have hx : ¬ x.2 = c := by omega
        simp [List.filter_cons, hy, hx, ih]
      · simp [List.filter_cons, hy, ih]

theorem sortByCountDesc_filter (l : List (String × Nat)) (c : Nat) :
    (sortByCountDesc l).filter (fun p => p.2 = c) = l.filter (fun p => p.2 = c) := by
  induction l with
  | nil => simp [sortByCountDesc]
  | cons x xs ih =>
    simp only [sortByCountDesc, List.foldr_cons]
    rw [show xs.foldr insertByCount [] = sortByCountDesc xs from rfl] at *
    rw [insertByCount_filter, ih]
    by_cases h : x.2 = c <;> simp [List.filter_cons, h]

/-- Claim C9: the ranking lists at most ten community values, ordered by
count descending; missing values are counted under `"Unknown"` (every
reported pair carries the exact occurrence count of its value in the
`fillna`-ed column); the unique values enter in first-seen order and the
sort is stable, so ties between equal counts stay in first-seen order
(for every count value, filtering the ranking to that count yields the
first-seen-ordered unique values of that count). -/
theorem topSources_spec (col : List (Option String)) :
    (topSources col).length ≤ 10 ∧
    (topSources col).Pairwise (fun a b => b.2 ≤ a.2) ∧
    (∀ p ∈ topSources col, p.2 = (fillUnknown col).count p.1 ∧ p.1 ∈ firstSeen (fillUnknown col)) ∧
    (uniqCounts (fillUnknown col)).map Prod.fst = firstSeen (fillUnknown col) ∧
    (∀ c, (value_counts (fillUnknown col)).filter (fun p => p.2 = c) =
        (uniqCounts (fillUnknown col)).filter (fun p => p.2 = c)) := by
  refine ⟨?_, ?_, ?_, ?_, ?_⟩
  · rw [topSources, List.length_take]
    exact min_le_left _ _
  · exact (sortByCountDesc_sorted _).sublist (List.take_sublist _ _)
  · intro p hp
    have hmem : p ∈ value_counts (fillUnknown col) := List.mem_of_mem_take hp
    have : p ∈ uniqCounts (fillUnknown col) := (sortByCountDesc_mem _ _).1 hmem
    rcases List.mem_map.1 this with ⟨s, hs, hps⟩
    constructor
    · rw [← hps]
    · rw [← hps]
      exact hs
  · rw [uniqCounts, List.map_map]
    rw [show (Prod.fst ∘ fun s => (s, (fillUnknown col).count s)) = id from rfl, List.map_id]
  · intro c
    exact sortByCountDesc_filter _ c

/-! ### Spike detector

No spike detector exists in `src/`; the design document alone specifies
`detectSpikes` (§4.5), so it is modelled from the spec's words here.  The
spec allows the trailing window to include the current point provided the
convention is consistent; the model uses the inclusive window of the last
`window` points with the warm-up standard deviation 0 the spec fixes, and
the flag test `count > mean + sigma * std` is carried out in exact
rational arithmetic through the equivalent test
`count > mean ∧ (count - mean)² > sigma² · var` (see
`isSpike_iff_sqrt`). -/

/-- Modelled from the spec: the trailing window of the last `window`
counts up to and including position `i`. -/
def rollingWindow (counts : List ℚ) (window i : Nat) : List ℚ :=
  let pre := counts.take (i + 1)
  pre.drop (pre.length - window)

/-- Modelled from the spec: arithmetic mean of a window (0 when empty). -/
def qmean (l : List ℚ) : ℚ := l.sum / (l.length : ℚ)

/-- Modelled from the spec: sample variance of a window, with the spec's
warm-up value 0 when fewer than two points are available. -/
def qvar (l : List ℚ) : ℚ :=
  if 2 ≤ l.length then ((l.map (fun x => (x - qmean l) ^ 2)).sum) / ((l.length : ℚ) - 1)
  else 0

/-- Modelled from the spec: the flag test `count > mean + sigma * std`
with `std = √var`, carried out rationally; `isSpike_iff_sqrt` shows the
equivalence for `sigma ≥ 0`, `var ≥ 0`. -/
def isSpike (cnt mean v sigma : ℚ) : Bool :=
  decide (mean < cnt ∧ sigma ^ 2 * v < (cnt - mean) ^ 2)

/-- Modelled from the spec: scan of the series with the running index. -/
def detectSpikesAux (counts : List ℚ) (window : Nat) (sigma : ℚ) :
    List (Nat × ℚ) → Nat → List (Nat × ℚ)
  | [], _ => []
  | p :: rest, i =>
    let w := rollingWindow counts window i
    if isSpike p.2 (qmean w) (qvar w) sigma then
      p :: detectSpikesAux counts window sigma rest (i + 1)
    else detectSpikesAux counts window sigma rest (i + 1)

/-- Modelled from the spec: `detectSpikes(series, window, sigma)` returns,
in input order, the `(date, count)` points whose count exceeds the
trailing mean by more than `sigma` trailing standard deviations. -/
def detectSpikes (series : List (Nat × ℚ)) (window : Nat) (sigma : ℚ) : List (Nat × ℚ) :=
  detectSpikesAux (series.map Prod.snd) window sigma series 0

/-- The rational flag test agrees with the spec's
`count > mean + sigma * √var` over the reals. -/
theorem isSpike_iff_sqrt (cnt mean v sigma : ℚ) (hv : 0 ≤ v) (hs : 0 ≤ sigma) :
    isSpike cnt mean v sigma = true ↔
      ((mean : ℝ) + (sigma : ℝ) * Real.sqrt ((v : ℝ)) < ((cnt : ℝ))) := by
  have hv' : (0 : ℝ) ≤ (v : ℝ) := by exact_mod_cast hv
  have hs' : (0 : ℝ) ≤ (sigma : ℝ) := by exact_mod_cast hs
  have hnn : (0 : ℝ) ≤ Real.sqrt ((v : ℝ)) := Real.sqrt_nonneg _
  rw [isSpike, decide_eq_true_iff]
  constructor
  · rintro ⟨h1, h2⟩
    have h1' : (mean : ℝ) < (cnt : ℝ) := by exact_mod_cast h1
    have h2' : ((sigma : ℝ)) ^ 2 * (v : ℝ) < ((cnt : ℝ) - (mean : ℝ)) ^ 2 := by exact_mod_cast h2
    by_contra hle
    push_neg at hle
    have h3 : ((cnt : ℝ) - (mean : ℝ)) ≤ (sigma : ℝ) * Real.sqrt ((v : ℝ)) := by linarith
    have h4 : ((cnt : ℝ) - (mean : ℝ)) ^ 2 ≤ ((sigma : ℝ) * Real.sqrt ((v : ℝ))) ^ 2 :=
      pow_le_pow_left₀ (by linarith) h3 2
    rw [mul_pow, Real.sq_sqrt hv'] at h4
    linarith
  · intro h
    have hsx : (0 : ℝ) ≤ (sigma : ℝ) * Real.sqrt ((v : ℝ)) := mul_nonneg hs' hnn
    have h1' : (mean : ℝ) < (cnt : ℝ) := by linarith
    have h4 : (sigma : ℝ) * Real.sqrt ((v : ℝ)) < ((cnt : ℝ) - (mean : ℝ)) := by linarith
    have h5 : ((sigma : ℝ) * Real.sqrt ((v : ℝ))) ^ 2 < ((cnt : ℝ) - (mean : ℝ)) ^ 2 :=
      pow_lt_pow_left₀ h4 hsx (by norm_num)
    rw [mul_pow, Real.sq_sqrt hv'] at h5
    exact ⟨by exact_mod_cast h1', by exact_mod_cast h5⟩

theorem qmean_replicate (k : Nat) (c : ℚ) (hk : k ≠ 0) : qmean (List.replicate k c) = c := by
  have hk' : ((k : ℚ)) ≠ 0 := by exact_mod_cast hk
  simp only [qmean, List.sum_replicate, List.length_replicate, nsmul_eq_mul]
  exact mul_div_cancel_left₀ c hk'

theorem qvar_replicate (k : Nat) (c : ℚ) : qvar (List.replicate k c) = 0 := by
  rcases Nat.eq_zero_or_pos k with hk | hk
  · subst hk
    simp [qvar]
  · have hm : qmean (List.replicate k c) = c := qmean_replicate k c (Nat.pos_iff_ne_zero.1 hk)
    simp [qvar, List.map_replicate, hm, List.sum_replicate]

theorem isSpike_const (c sigma : ℚ) : isSpike c c 0 sigma = false := by
  simp [isSpike]

theorem detectSpikesAux_const (n window : Nat) (c sigma : ℚ) (hw : 1 ≤ window) (hn : 1 ≤ n)
    (l : List (Nat × ℚ)) (i : Nat) (hl : ∀ p ∈ l, p.2 = c) :
    detectSpikesAux (List.replicate n c) window sigma l i = [] := by
  induction l generalizing i with
  | nil => simp [detectSpikesAux]
  | cons p rest ih =>
    have hp2 : p.2 = c := hl p (List.mem_cons_self p rest)
    have hwrep : rollingWindow (List.replicate n c) window i =
        List.replicate (min (i + 1) n - (min (i + 1) n - window)) c := by
      simp [rollingWindow, List.take_replicate, List.drop_replicate, List.length_replicate]
    have hmle : 1 ≤ min (i + 1) n := le_min (by omega) hn
    have hkpos : (min (i + 1) n - (min (i + 1) n - window)) ≠ 0 := by omega
    simp only [detectSpikesAux, hwrep, qmean_replicate _ _ hkpos, qvar_replicate, hp2,
      isSpike_const, Bool.false_eq_true, if_false]
    exact ih (i + 1) (fun q hq => hl q (List.mem_cons.2 (Or.inr hq)))

/-- Claim C8 (spec-modelled): the spike detector flags nothing on a
constant daily series of length at least `window` (the rolling mean equals
every value and the rolling standard deviation is 0, so the strict
comparison fails), and empty input yields empty output. -/
theorem detectSpikes_const_and_empty :
    (∀ (dates : List Nat) (c sigma : ℚ) (window : Nat),
        1 ≤ window → window ≤ dates.length → 0 < sigma →
        detectSpikes (dates.map (fun d => (d, c))) window sigma = []) ∧
    (∀ (window : Nat) (sigma : ℚ), detectSpikes [] window sigma = []) := by
  constructor
  · intro dates c sigma window hw hlen hs
    have hmap : (dates.map (fun d => (d, c))).map Prod.snd = List.replicate dates.length c := by
      rw [List.map_map]
      rw [show (Prod.snd ∘ fun d : Nat => (d, c)) = fun _ => c from rfl]
      rw [List.map_const']
    rw [detectSpikes, hmap]
    exact detectSpikesAux_const dates.length window c sigma hw (le_trans hw hlen) _ 0
      (fun p hp => by
        rcases List.mem_map.1 hp with ⟨d, hd, hpd⟩
        rw [← hpd])
  · intro window sigma
    rfl

/-- Claim C8, witness: a constant series of seven days at count 5 with the
default `window = 7`, `sigma = 2.5` flags nothing. -/
theorem detectSpikes_const_and_empty_witness :
    detectSpikes ((List.range 7).map (fun d => (d, (5 : ℚ)))) 7 (5 / 2) = [] :=
  detectSpikes_const_and_empty.1 (List.range 7) 5 (5 / 2) 7 (by norm_num)
    (by simp) (by norm_num)

end SocialListening
